import Mathlib

/-!
Verification development for the concurrent ping tool (ping-tool.py).

The program shells out to the system ping utility for a fixed registry of
hosts, parses each raw output with independent regular-expression searches,
and renders a sorted summary table.  This file gives a shallow embedding of
the program and proves the specified properties about it.

Modelling conventions:
* Python strings are Lean Strings; pattern matching over them is performed
  on their character lists.
* Each regular expression of the source is embedded as a deterministic
  matcher.  For these particular patterns, greedy matching with
  backtracking coincides with maximal-munch without backtracking: every
  sub-pattern that can give back characters (such as a digit run followed
  by a literal) would re-offer a character of the same class, which can
  never satisfy the literal that follows, so no backtracking branch can
  succeed where the maximal-munch parse fails.  Comments at each matcher
  record the argument.
* re.search tries every start position from the left; the search functions
  below recurse over the character list the same way.
* Python ints are modelled as ℤ (ℕ where the source can only produce a
  count), Python floats produced by parsing decimal tokens as ℚ.
* The external subprocess call is modelled by a PingOutcome value saying
  whether the command completed, timed out, or raised; the rest of
  ping_host is embedded faithfully around it.
-/

namespace PingTool

set_option maxRecDepth 8000

/-- The compiled-in host registry (a Python dict, kept in insertion
order as an association list). -/
def HOSTS : List (String × String) :=
  [("Modem", "10.0.0.1"), ("Router", "192.168.1.1"), ("Google DNS", "8.8.8.8")]

/-- Desired display order for results. -/
def DISPLAY_ORDER : List String := ["Router", "Modem", "Google DNS"]

/-- Matching a literal against the head of a character list; returns the
remaining characters on success.  Used for the fixed parts of each regex. -/
def stripLit : List Char → List Char → Option (List Char)
  | [], s => some s
  | _ :: _, [] => none
  | c :: cs, d :: ds => if c = d then stripLit cs ds else none

/-- The literal tail of the packet-loss pattern. -/
def lossLit : List Char := "% packet loss".toList

/-- The two literal segments of the packet-counts pattern. -/
def statsLitA : List Char := " packets transmitted, ".toList

def statsLitB : List Char := " packets received".toList

/-- The literal head of the round-trip-time pattern. -/
def rttLit : List Char := "round-trip min/avg/max/stddev = ".toList

def rttMsLit : List Char := " ms".toList

/-- The per-attempt timeout marker counted by re.findall. -/
def timeoutLit : List Char := "Request timeout for icmp_seq".toList

/-- One attempt of the first regex at a fixed start position.  The
group is the decimal token of (backslash-d+ dot? backslash-d*) and must be
followed by the literal of lossLit.  Backtracking cannot rescue a failed
maximal-munch parse here: shrinking either digit run leaves a digit where
the percent sign is required, and dropping the optional dot leaves the dot
itself there. -/
def matchLossAt (s : List Char) : Option (List Char) :=
  let ds := s.takeWhile Char.isDigit
  let r1 := s.dropWhile Char.isDigit
  if ds.isEmpty then none
  else if r1.head? = some '.' then
    let r2 := r1.tail
    let fs := r2.takeWhile Char.isDigit
    let r3 := r2.dropWhile Char.isDigit
    if (stripLit lossLit r3).isSome then some (ds ++ '.' :: fs) else none
  else if (stripLit lossLit r1).isSome then some ds else none

/-- re.search for the packet-loss pattern: leftmost matching start
position wins. -/
def searchLoss : List Char → Option (List Char)
  | [] => none
  | c :: t =>
      match matchLossAt (c :: t) with
      | some g => some g
      | none => searchLoss t

/-- One attempt of the packet-counts regex at a fixed start position:
digits, literal, digits, literal.  Again maximal munch is complete, since
any shrunk digit run would put a digit where a space is required. -/
def matchStatsAt (s : List Char) : Option (List Char × List Char) :=
  let d1 := s.takeWhile Char.isDigit
  let r1 := s.dropWhile Char.isDigit
  if d1.isEmpty then none
  else
    match stripLit statsLitA r1 with
    | none => none
    | some r2 =>
        let d2 := r2.takeWhile Char.isDigit
        let r3 := r2.dropWhile Char.isDigit
        if d2.isEmpty then none
        else if (stripLit statsLitB r3).isSome then some (d1, d2) else none

/-- re.search for the packet-counts pattern. -/
def searchStats : List Char → Option (List Char × List Char)
  | [] => none
  | c :: t =>
      match matchStatsAt (c :: t) with
      | some g => some g
      | none => searchStats t

/-- Character class of the round-trip-time groups: digits or a dot. -/
def isRttChar (c : Char) : Bool := c.isDigit || c = '.'

/-- One attempt of the round-trip-time regex at a fixed start position.
The four groups are runs of the digit-or-dot class separated by slashes;
a shrunk run would re-offer a class character where a slash or space is
required, so maximal munch is again complete. -/
def matchRttAt (s : List Char) :
    Option (List Char × List Char × List Char × List Char) :=
  match stripLit rttLit s with
  | none => none
  | some r0 =>
      let a := r0.takeWhile isRttChar
      let r0d := r0.dropWhile isRttChar
      if r0d.head? = some '/' then
        let r1 := r0d.tail
        let b := r1.takeWhile isRttChar
        let r1d := r1.dropWhile isRttChar
        if r1d.head? = some '/' then
          let r2 := r1d.tail
          let c := r2.takeWhile isRttChar
          let r2d := r2.dropWhile isRttChar
          if r2d.head? = some '/' then
            let r3 := r2d.tail
            let d := r3.takeWhile isRttChar
            let r4 := r3.dropWhile isRttChar
            if a.isEmpty || b.isEmpty || c.isEmpty || d.isEmpty then none
            else if (stripLit rttMsLit r4).isSome then some (a, b, c, d)
            else none
          else none
        else none
      else none

/-- re.search for the round-trip-time pattern. -/
def searchRtt : List Char → Option (List Char × List Char × List Char × List Char)
  | [] => none
  | c :: t =>
      match matchRttAt (c :: t) with
      | some g => some g
      | none => searchRtt t

/-- Fuel-indexed core of the timeout-marker count.  re.findall counts
non-overlapping occurrences, resuming after each match; each step consumes
at least one character, so fuel equal to the length of the string is
always sufficient and the zero-fuel branch is unreachable. -/
def countTimeoutsGo : ℕ → List Char → ℕ
  | 0, _ => 0
  | fuel + 1, s =>
      match s with
      | [] => 0
      | c :: t =>
          match stripLit timeoutLit (c :: t) with
          | some r => 1 + countTimeoutsGo fuel r
          | none => countTimeoutsGo fuel t

/-- len(re.findall(r"Request timeout for icmp_seq", ping_output)). -/
def countTimeouts (s : List Char) : ℕ := countTimeoutsGo s.length s

/-- Value of a decimal digit character (int of the character, as in
Python int(); capture groups feeding it consist of digits only). -/
def digitVal (c : Char) : ℕ := c.toNat - 48

/-- Python int() on a captured digit-only group. -/
def pyIntNat (ds : List Char) : ℕ := ds.foldl (fun a c => 10 * a + digitVal c) 0

/-- Value of the fractional part of a decimal token. -/
def fracVal : List Char → ℚ
  | [] => 0
  | c :: cs => ((digitVal c : ℚ) + fracVal cs) / 10

/-- Python float() on a captured decimal token (digits with at most one
dot, as produced by the packet-loss group). -/
def pyFloat (g : List Char) : ℚ :=
  let ip := g.takeWhile (fun c => c != '.')
  match g.dropWhile (fun c => c != '.') with
  | _ :: fs => (pyIntNat ip : ℚ) + fracVal fs
  | [] => (pyIntNat ip : ℚ)

/-- A packet-count field of the parse result: a Python int, or the
string sentinel N/A. -/
inductive PyCount where
  | int (n : ℤ)
  | na
deriving DecidableEq

/-- The packet-loss field: a Python float, or a string sentinel (the
source uses the sentinel Error). -/
inductive PyLoss where
  | num (q : ℚ)
  | str (s : String)
deriving DecidableEq

/-- The dictionary returned by parse_ping_output. -/
structure ParsedStats where
  packets_transmitted : PyCount
  packets_received : PyCount
  packet_loss : PyLoss
  rtt_min : String
  rtt_avg : String
  rtt_max : String
  rtt_stddev : String
  timeout_count : ℕ
deriving DecidableEq

/-- parse_ping_output from the source: four independent pattern
extractions, each degrading to its own sentinel when its pattern is
absent. -/
def parse_ping_output (ping_output : String) : ParsedStats :=
  let cs := ping_output.toList
  { packets_transmitted :=
      match searchStats cs with
      | some g => .int (pyIntNat g.1 : ℤ)
      | none => .na
    packets_received :=
      match searchStats cs with
      | some g => .int (pyIntNat g.2 : ℤ)
      | none => .na
    packet_loss :=
      match searchLoss cs with
      | some g => .num (pyFloat g)
      | none => .str ("Error")
    rtt_min :=
      match searchRtt cs with
      | some g => String.mk g.1
      | none => "N/A"
    rtt_avg :=
      match searchRtt cs with
      | some g => String.mk g.2.1
      | none => "N/A"
    rtt_max :=
      match searchRtt cs with
      | some g => String.mk g.2.2.1
      | none => "N/A"
    rtt_stddev :=
      match searchRtt cs with
      | some g => String.mk g.2.2.2
      | none => "N/A"
    timeout_count := countTimeouts cs }

/-- The environment's behaviour of one subprocess.run invocation:
completion with captured stdout ++ stderr, subprocess.TimeoutExpired,
or any other exception (with its description). -/
inductive PingOutcome where
  | completed (output : String)
  | timedOut
  | failed (msg : String)

/-- Decimal digit characters. -/
def digitChar : ℕ → Char
  | 0 => '0'
  | 1 => '1'
  | 2 => '2'
  | 3 => '3'
  | 4 => '4'
  | 5 => '5'
  | 6 => '6'
  | 7 => '7'
  | 8 => '8'
  | _ => '9'

/-- Fuel-indexed digit emission for decimal representation; fuel equal to
the number itself always suffices (a number has no more digits than its
own magnitude). -/
def natDigitsGo : ℕ → ℕ → List Char → List Char
  | 0, n, acc => digitChar n :: acc
  | fuel + 1, n, acc =>
      if n < 10 then digitChar n :: acc
      else natDigitsGo fuel (n / 10) (digitChar (n % 10) :: acc)

/-- Python str() of an int (decimal notation, minus sign when
negative). -/
def pyStr (z : ℤ) : String :=
  if z < 0 then String.mk ('-' :: natDigitsGo z.natAbs z.natAbs [])
  else String.mk (natDigitsGo z.toNat z.toNat [])

/-- The argv built by ping_host. -/
def ping_command (count : ℤ) (ip : String) : List String :=
  ["ping", "-c", pyStr count, ip]

/-- The overall subprocess timeout, count + 10 seconds. -/
def subprocess_timeout (count : ℤ) : ℤ := count + 10

/-- The synthetic diagnostic substituted on subprocess.TimeoutExpired. -/
def timeout_message (count : ℤ) : String :=
  "Ping command timed out after " ++ pyStr (subprocess_timeout count) ++ " seconds."

/-- The synthetic diagnostic substituted on any other exception. -/
def error_message (e : String) : String := "An error occurred: " ++ e

/-- ping_host from the source: always returns the (name, ip, raw output)
triple, degrading the output to a diagnostic string on timeout or
failure. -/
def ping_host (name ip : String) (count : ℤ) (outcome : PingOutcome) :
    String × String × String :=
  match outcome with
  | .completed out => (name, ip, out)
  | .timedOut => (name, ip, timeout_message count)
  | .failed e => (name, ip, error_message e)

/-- One row of the summary: the dict with name, ip and the parsed
statistics that main accumulates into all_results. -/
structure ReportRow where
  name : String
  ip : String
  stats : ParsedStats
deriving DecidableEq

/-- The per-result body of the collection loop in main: parse the raw
output and build the row. -/
def rowOf (r : String × String × String) : ReportRow :=
  ⟨r.1, r.2.1, parse_ping_output r.2.2⟩

/-- The collection loop over the completed results (whatever order
imap_unordered delivers them in). -/
def collect_rows (completed : List (String × String × String)) : List ReportRow :=
  completed.map rowOf

/-- The multiset of results produced by the pool, in task order; the
loop sees some permutation of it. -/
def run_results (hosts : List (String × String)) (count : ℤ)
    (oc : String → PingOutcome) : List (String × String × String) :=
  hosts.map (fun h => ping_host h.1 h.2 count (oc h.1))

/-- The sort key of the final report: DISPLAY_ORDER.index(name). -/
def sortKey (r : ReportRow) : ℕ := DISPLAY_ORDER.indexOf r.name

/-- The comparison the sort uses. -/
def rowLE (a b : ReportRow) : Prop := sortKey a ≤ sortKey b

/-- Strict version of the row comparison, for uniqueness arguments. -/
def rowLT (a b : ReportRow) : Prop := sortKey a < sortKey b

instance : DecidableRel rowLE := fun _ _ => Nat.decLe _ _

instance : IsTotal ReportRow rowLE := ⟨fun _ _ => Nat.le_total _ _⟩

instance : IsTrans ReportRow rowLE := ⟨fun _ _ _ => Nat.le_trans⟩

instance : IsAntisymm ReportRow rowLT :=
  ⟨fun _ _ h₁ h₂ => absurd (Nat.lt_trans h₁ h₂) (Nat.lt_irrefl _)⟩

/-- all_results.sort(key=lambda x: DISPLAY_ORDER.index(x["name"])).
Python's sort is stable; so is insertion sort. -/
def sort_rows (rows : List ReportRow) : List ReportRow :=
  List.insertionSort rowLE rows

/-- The same sort with the failure behaviour of list.index made
explicit: CPython precomputes every key before reordering, so a single
name absent from DISPLAY_ORDER raises ValueError and no sorted list is
produced. -/
def sort_rows_checked (rows : List ReportRow) : Except String (List ReportRow) :=
  if ∀ r ∈ rows, r.name ∈ DISPLAY_ORDER then .ok (sort_rows rows)
  else .error ("ValueError")

/-- main, from argument parsing to the sorted table data: ping every
host (no validation of the registry against DISPLAY_ORDER happens at
startup), emit one progress line per completed result, collect one row
per result, then sort.  Returns the progress lines and the outcome of
the sort. -/
def run_main (hosts : List (String × String)) (count : ℤ)
    (oc : String → PingOutcome) :
    List String × Except String (List ReportRow) :=
  let results := run_results hosts count oc
  let progress :=
    results.map (fun r => "  -> Finished pinging " ++ r.1 ++ " (" ++ r.2.1 ++ ").")
  (progress, sort_rows_checked (collect_rows results))

/-- The three rich markup styles the packet-loss cell can take: green is
the ok style, yellow the warn style, red the critical style. -/
inductive LossStyle where
  | green
  | yellow
  | red
deriving DecidableEq

/-- The timeout-count cell is either yellow (warn) or unstyled. -/
inductive TimeoutStyle where
  | plain
  | yellow
deriving DecidableEq

/-- The severity classification main applies to the packet-loss value
when adding the row: floats above 5 are red, above 0 yellow, otherwise
green; a non-float (the sentinel) is red. -/
def loss_style (v : PyLoss) : LossStyle :=
  match v with
  | .num q => if q > 5 then .red else if q > 0 then .yellow else .green
  | .str _ => .red

/-- The styling of the timeout-count cell: yellow when positive. -/
def timeout_style (n : ℕ) : TimeoutStyle :=
  if n > 0 then .yellow else .plain

/-- parse_args: argparse accepts any int for the count flag (no
positivity check anywhere), defaulting to 10. -/
def parse_args (cli_count : Option ℤ) : ℤ := cli_count.getD 10

/-- The ParsedStats in which every field holds its sentinel (and the
timeout count is zero). -/
def sentinelStats : ParsedStats :=
  { packets_transmitted := .na
    packets_received := .na
    packet_loss := .str ("Error")
    rtt_min := "N/A"
    rtt_avg := "N/A"
    rtt_max := "N/A"
    rtt_stddev := "N/A"
    timeout_count := 0 }

/-- Scenario A input: a complete successful macOS ping transcript. -/
def scenarioA : String :=
  "PING 8.8.8.8: 56 data bytes\n10 packets transmitted, 10 packets received, 0.0% packet loss\nround-trip min/avg/max/stddev = 1.0/2.0/3.0/0.5 ms\n"

/-- Scenario B input: two per-attempt timeout lines and none of the
summary lines. -/
def scenarioB : String :=
  "Request timeout for icmp_seq 0\nRequest timeout for icmp_seq 1\n"

/-- A registry extended with a host that DISPLAY_ORDER does not
mention. -/
def badHOSTS : List (String × String) :=
  HOSTS ++ [("Example", "93.184.216.34")]

/-- A report row for the Router host with sentinel statistics. -/
def rowRouter : ReportRow := ⟨"Router", "192.168.1.1", sentinelStats⟩

/-- A report row for the Modem host with sentinel statistics. -/
def rowModem : ReportRow := ⟨"Modem", "10.0.0.1", sentinelStats⟩

/-! Theorems.  Helper lemmas come first, then one theorem per claim of the
specification, each with its witness where the statement carries a
hypothesis. -/

/-- Evaluation of the float parse of the token 0.0. -/
theorem pyFloat_zeroToken : pyFloat ("0.0".toList) = 0 := by
  show ((pyIntNat ['0'] : ℚ) + fracVal ['0']) = 0
  simp [fracVal, show pyIntNat ['0'] = 0 from rfl, show digitVal '0' = 0 from rfl]

/-- Projection of the loss field of the parse result. -/
theorem parse_loss_def (s : String) :
    (parse_ping_output s).packet_loss =
      match searchLoss s.toList with
      | some g => PyLoss.num (pyFloat g)
      | none => PyLoss.str ("Error") := rfl

/-- Projection of the transmitted field of the parse result. -/
theorem parse_tx_def (s : String) :
    (parse_ping_output s).packets_transmitted =
      match searchStats s.toList with
      | some g => PyCount.int (pyIntNat g.1 : ℤ)
      | none => PyCount.na := rfl

/-- Projection of the received field of the parse result. -/
theorem parse_rx_def (s : String) :
    (parse_ping_output s).packets_received =
      match searchStats s.toList with
      | some g => PyCount.int (pyIntNat g.2 : ℤ)
      | none => PyCount.na := rfl

/-- Nonnegativity of the fractional-part value. -/
theorem fracVal_nonneg : ∀ l : List Char, 0 ≤ fracVal l := by
  intro l
  induction l with
  | nil => simp [fracVal]
  | cons c cs ih =>
      simp only [fracVal]
      positivity

/-- Nonnegativity of the float parse: the token has no sign position. -/
theorem pyFloat_nonneg (g : List Char) : 0 ≤ pyFloat g := by
  rw [pyFloat]
  cases g.dropWhile (fun c => c != '.') with
  | nil => positivity
  | cons c fs =>
      have := fracVal_nonneg fs
      positivity

/-- stripLit succeeds exactly by peeling the literal off the front. -/
theorem stripLit_eq : ∀ {lit s r : List Char}, stripLit lit s = some r → s = lit ++ r := by
  intro lit
  induction lit with
  | nil =>
      intro s r h
      simp only [stripLit, Option.some.injEq] at h
      simp [h]
  | cons c cs ih =>
      intro s r h
      cases s with
      | nil => simp [stripLit] at h
      | cons d ds =>
          by_cases hcd : c = d
          · subst hcd
            simp only [stripLit, if_pos] at h
            simpa using ih h
          · simp [stripLit, hcd] at h

/-- Membership transfers from a dropWhile suffix to the whole list. -/
theorem mem_of_dropWhile {p : Char → Bool} {a : Char} :
    ∀ {l : List Char}, a ∈ l.dropWhile p → a ∈ l := by
  intro l
  induction l with
  | nil => intro h; simp at h
  | cons c t ih =>
      intro h
      rw [List.dropWhile_cons] at h
      by_cases hc : p c = true
      · rw [if_pos hc] at h
        exact List.mem_cons_of_mem _ (ih h)
      · rw [if_neg hc] at h
        exact h

/-- A literal can only be stripped from a list made of characters of the
input when its own characters occur in the input. -/
theorem stripLit_isSome_false {s : List Char} {lit : List Char} {c : Char}
    (hc : c ∈ lit) (h : c ∉ s) :
    ∀ x : List Char, (∀ e ∈ x, e ∈ s) → ¬ (stripLit lit x).isSome = true := by
  intro x hx hs
  obtain ⟨r, hr⟩ := Option.isSome_iff_exists.1 hs
  have h1 : c ∈ lit ++ r := List.mem_append_left _ hc
  rw [← stripLit_eq hr] at h1
  exact h (hx _ h1)

/-- A string without a percent sign cannot match the loss pattern at any
position. -/
theorem matchLossAt_none {s : List Char} (h : '%' ∉ s) : matchLossAt s = none := by
  have hsub := @stripLit_isSome_false s lossLit '%' (by decide) h
  unfold matchLossAt
  by_cases he : (s.takeWhile Char.isDigit).isEmpty = true
  · rw [if_pos he]
  · rw [if_neg he]
    by_cases hd : (s.dropWhile Char.isDigit).head? = some '.'
    · have hcond := hsub ((s.dropWhile Char.isDigit).tail.dropWhile Char.isDigit)
        (fun e hcm => mem_of_dropWhile (List.mem_of_mem_tail (mem_of_dropWhile hcm)))
      rw [if_pos hd, if_neg hcond]
    · have hcond := hsub (s.dropWhile Char.isDigit) (fun e hcm => mem_of_dropWhile hcm)
      rw [if_neg hd, if_neg hcond]

/-- The loss search fails on any string without a percent sign. -/
theorem searchLoss_none : ∀ {s : List Char}, '%' ∉ s → searchLoss s = none := by
  intro s
  induction s with
  | nil => intro _; rfl
  | cons c t ih =>
      intro h
      show (match matchLossAt (c :: t) with
            | some g => some g
            | none => searchLoss t) = none
      rw [matchLossAt_none h]
      exact ih (fun hm => h (List.mem_cons_of_mem _ hm))

/-- A string without a lowercase k cannot match the packet-counts pattern
at any position (its first literal segment needs one). -/
theorem matchStatsAt_none {s : List Char} (h : 'k' ∉ s) : matchStatsAt s = none := by
  unfold matchStatsAt
  by_cases he : (s.takeWhile Char.isDigit).isEmpty = true
  · rw [if_pos he]
  · rw [if_neg he]
    cases hstrip : stripLit statsLitA (s.dropWhile Char.isDigit) with
    | none => rfl
    | some r2 =>
        exfalso
        have h1 : 'k' ∈ statsLitA ++ r2 := List.mem_append_left _ (by decide)
        rw [← stripLit_eq hstrip] at h1
        exact h (mem_of_dropWhile h1)

/-- The packet-counts search fails on any string without a lowercase k. -/
theorem searchStats_none : ∀ {s : List Char}, 'k' ∉ s → searchStats s = none := by
  intro s
  induction s with
  | nil => intro _; rfl
  | cons c t ih =>
      intro h
      show (match matchStatsAt (c :: t) with
            | some g => some g
            | none => searchStats t) = none
      rw [matchStatsAt_none h]
      exact ih (fun hm => h (List.mem_cons_of_mem _ hm))

/-- A string without a lowercase v cannot match the round-trip pattern at
any position (the literal head contains avg and stddev). -/
theorem matchRttAt_none {s : List Char} (h : 'v' ∉ s) : matchRttAt s = none := by
  unfold matchRttAt
  cases hstrip : stripLit rttLit s with
  | none => rfl
  | some r0 =>
      exfalso
      have h1 : 'v' ∈ rttLit ++ r0 := List.mem_append_left _ (by decide)
      rw [← stripLit_eq hstrip] at h1
      exact h h1

/-- The round-trip search fails on any string without a lowercase v. -/
theorem searchRtt_none : ∀ {s : List Char}, 'v' ∉ s → searchRtt s = none := by
  intro s
  induction s with
  | nil => intro _; rfl
  | cons c t ih =>
      intro h
      show (match matchRttAt (c :: t) with
            | some g => some g
            | none => searchRtt t) = none
      rw [matchRttAt_none h]
      exact ih (fun hm => h (List.mem_cons_of_mem _ hm))

/-- A string without an uppercase R contains no timeout marker. -/
theorem countTimeoutsGo_zero :
    ∀ (fuel : ℕ) {s : List Char}, 'R' ∉ s → countTimeoutsGo fuel s = 0 := by
  intro fuel
  induction fuel with
  | zero => intro s _; rfl
  | succ f ih =>
      intro s h
      cases s with
      | nil => rfl
      | cons c t =>
          show (match stripLit timeoutLit (c :: t) with
                | some r => 1 + countTimeoutsGo f r
                | none => countTimeoutsGo f t) = 0
          cases hstrip : stripLit timeoutLit (c :: t) with
          | some r =>
              exfalso
              have h1 : 'R' ∈ timeoutLit ++ r := List.mem_append_left _ (by decide)
              rw [← stripLit_eq hstrip] at h1
              exact h h1
          | none => exact ih (fun hm => h (List.mem_cons_of_mem _ hm))

/-- The timeout-marker count of a string without an uppercase R is
zero. -/
theorem countTimeouts_zero {s : List Char} (h : 'R' ∉ s) : countTimeouts s = 0 :=
  countTimeoutsGo_zero s.length h

/-- Every character emitted by digitChar is a decimal digit. -/
theorem digitChar_mem : ∀ d : ℕ, digitChar d ∈ ("0123456789".toList) := by
  intro d
  match d with
  | 0 => decide
  | 1 => decide
  | 2 => decide
  | 3 => decide
  | 4 => decide
  | 5 => decide
  | 6 => decide
  | 7 => decide
  | 8 => decide
  | n + 9 =>
      show '9' ∈ ("0123456789".toList)
      decide

/-- The characters of the digit emitter are digits or come from the
accumulator. -/
theorem natDigitsGo_chars :
    ∀ (fuel n : ℕ) (acc : List Char) (c : Char),
      c ∈ natDigitsGo fuel n acc → (∃ d, c = digitChar d) ∨ c ∈ acc := by
  intro fuel
  induction fuel with
  | zero =>
      intro n acc c hc
      rcases List.mem_cons.1 hc with h | h
      · exact Or.inl ⟨n, h⟩
      · exact Or.inr h
  | succ f ih =>
      intro n acc c hc
      rw [natDigitsGo] at hc
      by_cases hn : n < 10
      · rw [if_pos hn] at hc
        rcases List.mem_cons.1 hc with h | h
        · exact Or.inl ⟨n, h⟩
        · exact Or.inr h
      · rw [if_neg hn] at hc
        rcases ih _ _ _ hc with h | h
        · exact Or.inl h
        · rcases List.mem_cons.1 h with h1 | h1
          · exact Or.inl ⟨n % 10, h1⟩
          · exact Or.inr h1

/-- The decimal representation of an int uses only a minus sign and
digits. -/
theorem pyStr_chars (z : ℤ) (c : Char) (hc : c ∈ (pyStr z).toList) :
    c = '-' ∨ ∃ d, c = digitChar d := by
  rw [pyStr] at hc
  by_cases hz : z < 0
  · rw [if_pos hz] at hc
    have hc2 : c ∈ '-' :: natDigitsGo z.natAbs z.natAbs [] := hc
    rcases List.mem_cons.1 hc2 with h | h
    · exact Or.inl h
    · rcases natDigitsGo_chars _ _ _ _ h with h2 | h2
      · exact Or.inr h2
      · simp at h2
  · rw [if_neg hz] at hc
    have hc2 : c ∈ natDigitsGo z.toNat z.toNat [] := hc
    rcases natDigitsGo_chars _ _ _ _ hc2 with h2 | h2
    · exact Or.inr h2
    · simp at h2

/-- Every character of the timeout diagnostic lies in a fixed set that
contains no percent sign, no k, no v and no uppercase R. -/
theorem timeout_message_chars (count : ℤ) (c : Char)
    (hc : c ∈ (timeout_message count).toList) :
    c ∈ ("Ping command timed out after seconds.-0123456789".toList) := by
  have hsplit : (timeout_message count).data =
      "Ping command timed out after ".data ++
        (pyStr (subprocess_timeout count)).data ++ " seconds.".data := by
    rw [timeout_message, String.data_append, String.data_append]
  have hc2 : c ∈ "Ping command timed out after ".data ++
      (pyStr (subprocess_timeout count)).data ++ " seconds.".data := by
    rw [← hsplit]; exact hc
  have hpre : ∀ x ∈ "Ping command timed out after ".data,
      x ∈ ("Ping command timed out after seconds.-0123456789".toList) := by decide
  have hsuf : ∀ x ∈ " seconds.".data,
      x ∈ ("Ping command timed out after seconds.-0123456789".toList) := by decide
  have hdig : ∀ x ∈ "0123456789".toList,
      x ∈ ("Ping command timed out after seconds.-0123456789".toList) := by decide
  rcases List.mem_append.1 hc2 with h | h
  · rcases List.mem_append.1 h with h1 | h1
    · exact hpre c h1
    · rcases pyStr_chars _ _ h1 with h2 | h2
      · rw [h2]; decide
      · obtain ⟨d, rfl⟩ := h2
        exact hdig _ (digitChar_mem d)
  · exact hsuf c h

/-- Evaluation of the loss field on the Scenario A transcript. -/
theorem parseA_loss : (parse_ping_output scenarioA).packet_loss = PyLoss.num 0 := by
  have hl : searchLoss scenarioA.toList = some ("0.0".toList) := by decide
  simp only [parse_loss_def, hl, pyFloat_zeroToken]

/-- Evaluation of the transmitted field on the Scenario A transcript. -/
theorem parseA_tx :
    (parse_ping_output scenarioA).packets_transmitted = PyCount.int 10 := by
  have hs : searchStats scenarioA.toList = some ("10".toList, "10".toList) := by decide
  simp only [parse_tx_def, hs]
  rfl

/-- Claim C1: parse_ping_output is total and field-granular.  Every field
of the returned record is either a genuine extracted value or its
documented sentinel (Error for packet loss, the joint not-available
sentinels for the packet counts and the round-trip tokens, zero for the
timeout count), and each field is a function of its own pattern search
alone, so the absence of one pattern affects only that field. -/
theorem claim1_parse_total (s : String) :
    ((∃ q, (parse_ping_output s).packet_loss = PyLoss.num q) ∨
      (parse_ping_output s).packet_loss = PyLoss.str ("Error")) ∧
    ((∃ n m, (parse_ping_output s).packets_transmitted = PyCount.int n ∧
        (parse_ping_output s).packets_received = PyCount.int m) ∨
      ((parse_ping_output s).packets_transmitted = PyCount.na ∧
        (parse_ping_output s).packets_received = PyCount.na)) ∧
    ((∃ g, searchRtt s.toList = some g ∧
        (parse_ping_output s).rtt_min = String.mk g.1 ∧
        (parse_ping_output s).rtt_avg = String.mk g.2.1 ∧
        (parse_ping_output s).rtt_max = String.mk g.2.2.1 ∧
        (parse_ping_output s).rtt_stddev = String.mk g.2.2.2) ∨
      ((parse_ping_output s).rtt_min = "N/A" ∧
        (parse_ping_output s).rtt_avg = "N/A" ∧
        (parse_ping_output s).rtt_max = "N/A" ∧
        (parse_ping_output s).rtt_stddev = "N/A")) ∧
    (parse_ping_output s).timeout_count = countTimeouts s.toList ∧
    (∀ t : String, searchLoss t.toList = searchLoss s.toList →
      (parse_ping_output t).packet_loss = (parse_ping_output s).packet_loss) ∧
    (∀ t : String, searchStats t.toList = searchStats s.toList →
      (parse_ping_output t).packets_transmitted = (parse_ping_output s).packets_transmitted ∧
      (parse_ping_output t).packets_received = (parse_ping_output s).packets_received) ∧
    (∀ t : String, searchRtt t.toList = searchRtt s.toList →
      (parse_ping_output t).rtt_min = (parse_ping_output s).rtt_min ∧
      (parse_ping_output t).rtt_avg = (parse_ping_output s).rtt_avg ∧
      (parse_ping_output t).rtt_max = (parse_ping_output s).rtt_max ∧
      (parse_ping_output t).rtt_stddev = (parse_ping_output s).rtt_stddev) ∧
    (∀ t : String, countTimeouts t.toList = countTimeouts s.toList →
      (parse_ping_output t).timeout_count = (parse_ping_output s).timeout_count) := by
  refine ⟨?_, ?_, ?_, rfl, ?_, ?_, ?_, ?_⟩
  · cases h : searchLoss s.data with
    | some g => exact Or.inl ⟨pyFloat g, by simp [parse_ping_output, h]⟩
    | none => exact Or.inr (by simp [parse_ping_output, h])
  · cases h : searchStats s.data with
    | some g =>
        exact Or.inl ⟨(pyIntNat g.1 : ℤ), (pyIntNat g.2 : ℤ), by simp [parse_ping_output, h]⟩
    | none => exact Or.inr (by simp [parse_ping_output, h])
  · cases h : searchRtt s.data with
    | some g =>
        refine Or.inl ⟨g, h, ?_, ?_, ?_, ?_⟩ <;> simp [parse_ping_output, h]
    | none => exact Or.inr (by simp [parse_ping_output, h])
  · intro t ht
    simp only [parse_ping_output]
    rw [ht]
  · intro t ht
    constructor <;> (simp only [parse_ping_output]; rw [ht])
  · intro t ht
    refine ⟨?_, ?_, ?_, ?_⟩ <;> (simp only [parse_ping_output]; rw [ht])
  · intro t ht
    simp only [parse_ping_output]
    rw [ht]

/-- Witness for claim C1: the empty string and the Scenario B transcript
agree on the loss search (both fail), hence on the loss field. -/
theorem claim1_parse_total_witness :
    (parse_ping_output "").packet_loss = (parse_ping_output scenarioB).packet_loss :=
  (claim1_parse_total scenarioB).2.2.2.2.1 "" (by decide)

/-- Claim C2: for any completion order of the pool (any permutation of
the per-task results) the collected row list has exactly the registry
cardinality and exactly one row per host name, regardless of each host
having completed, timed out or failed. -/
theorem claim2_per_host_row (count : ℤ) (oc : String → PingOutcome)
    (completed : List (String × String × String))
    (hperm : completed.Perm (run_results HOSTS count oc)) :
    (collect_rows completed).length = HOSTS.length ∧
    ((collect_rows completed).map ReportRow.name).Perm (HOSTS.map Prod.fst) ∧
    ∀ h ∈ HOSTS, ((collect_rows completed).map ReportRow.name).count h.1 = 1 := by
  have hmapeq : (run_results HOSTS count oc).map (fun r => (rowOf r).name) =
      HOSTS.map Prod.fst := by
    rw [run_results, List.map_map]
    refine List.map_congr_left ?_
    intro h _
    show (rowOf (ping_host h.1 h.2 count (oc h.1))).name = h.1
    cases oc h.1 <;> rfl
  have hnames : ((collect_rows completed).map ReportRow.name).Perm (HOSTS.map Prod.fst) := by
    rw [collect_rows, List.map_map]
    exact hmapeq ▸ hperm.map (fun r => (rowOf r).name)
  refine ⟨?_, hnames, ?_⟩
  · rw [collect_rows, List.length_map, hperm.length_eq, run_results, List.length_map]
  · intro h hh
    rw [hnames.count_eq]
    exact List.count_eq_one_of_mem (by decide) (List.mem_map_of_mem Prod.fst hh)

/-- Witness for claim C2 at the identity completion order with every
host timing out. -/
theorem claim2_per_host_row_witness :
    (collect_rows (run_results HOSTS 10 (fun _ => PingOutcome.timedOut))).length =
      HOSTS.length :=
  (claim2_per_host_row 10 (fun _ => PingOutcome.timedOut) _ (List.Perm.refl _)).1

/-- Claim C3: on timeout ping_host returns the synthetic diagnostic
rather than failing, the diagnostic parses to the all-sentinel record
with timeout count zero for every count value, and each collected row is
a function of its own result alone, leaving other rows unaffected. -/
theorem claim3_timeout_sentinels (count : ℤ) :
    (∀ name ip, ping_host name ip count PingOutcome.timedOut =
      (name, ip, timeout_message count)) ∧
    parse_ping_output (timeout_message count) = sentinelStats ∧
    (∀ pre x post, collect_rows (pre ++ x :: post) =
      collect_rows pre ++ rowOf x :: collect_rows post) := by
  have hnotin : ∀ c : Char, c ∈ (timeout_message count).toList →
      c ∈ ("Ping command timed out after seconds.-0123456789".toList) :=
    timeout_message_chars count
  have hl : searchLoss (timeout_message count).toList = none :=
    searchLoss_none (fun hm => absurd (hnotin _ hm) (by decide))
  have hs : searchStats (timeout_message count).toList = none :=
    searchStats_none (fun hm => absurd (hnotin _ hm) (by decide))
  have hr : searchRtt (timeout_message count).toList = none :=
    searchRtt_none (fun hm => absurd (hnotin _ hm) (by decide))
  have ht : countTimeouts (timeout_message count).toList = 0 :=
    countTimeouts_zero (fun hm => absurd (hnotin _ hm) (by decide))
  refine ⟨fun name ip => rfl, ?_, fun pre x post => by simp [collect_rows]⟩
  simp only [parse_ping_output, hl, hs, hr, ht]
  rfl

/-- Claim C4: the packet-loss severity classification is a pure total
function of the loss value: exactly zero is the ok style, positive up to
and including five is the warn style, strictly above five is the
critical style, the non-numeric sentinel is the critical style, and a
positive timeout count is the warn style while zero is plain. -/
theorem claim4_loss_severity :
    loss_style (PyLoss.num 0) = LossStyle.green ∧
    (∀ q : ℚ, 0 < q → q ≤ 5 → loss_style (PyLoss.num q) = LossStyle.yellow) ∧
    loss_style (PyLoss.num 5) = LossStyle.yellow ∧
    (∀ q : ℚ, 5 < q → loss_style (PyLoss.num q) = LossStyle.red) ∧
    (∀ s : String, loss_style (PyLoss.str s) = LossStyle.red) ∧
    timeout_style 0 = TimeoutStyle.plain ∧
    (∀ n : ℕ, 0 < n → timeout_style n = TimeoutStyle.yellow) := by
  refine ⟨by norm_num [loss_style], ?_, by norm_num [loss_style], ?_, fun s => rfl,
    by norm_num [timeout_style], ?_⟩
  · intro q h1 h2
    simp only [loss_style]
    rw [if_neg (by linarith), if_pos h1]
  · intro q h
    simp only [loss_style]
    rw [if_pos h]
  · intro n h
    simp only [timeout_style]
    rw [if_pos h]

/-- Witness for claim C4 at losses three and seven and timeout count
two. -/
theorem claim4_loss_severity_witness :
    loss_style (PyLoss.num 3) = LossStyle.yellow ∧
    loss_style (PyLoss.num 7) = LossStyle.red ∧
    timeout_style 2 = TimeoutStyle.yellow :=
  ⟨claim4_loss_severity.2.1 3 (by norm_num) (by norm_num),
   claim4_loss_severity.2.2.2.1 7 (by norm_num),
   claim4_loss_severity.2.2.2.2.2.2 2 (by norm_num)⟩

/-- Claim C5: the rendered row order is a pure function of DISPLAY_ORDER
and the names present.  Any two accumulation orders of the same rows
sort to the identical sequence, the sorted sequence is a permutation of
the input, and it is sorted by the index of the name in DISPLAY_ORDER. -/
theorem claim5_sort_deterministic (rows1 rows2 : List ReportRow)
    (hperm : rows1.Perm rows2)
    (hnames : (rows1.map ReportRow.name).Nodup)
    (hmem : ∀ r ∈ rows1, r.name ∈ DISPLAY_ORDER) :
    sort_rows rows1 = sort_rows rows2 ∧
    (sort_rows rows1).Perm rows1 ∧
    (sort_rows rows1).Sorted rowLE := by
  have hinj : ∀ x ∈ DISPLAY_ORDER, ∀ y ∈ DISPLAY_ORDER,
      DISPLAY_ORDER.indexOf x = DISPLAY_ORDER.indexOf y → x = y := by decide
  have keyNodup : ∀ l : List ReportRow, (l.map ReportRow.name).Nodup →
      (∀ r ∈ l, r.name ∈ DISPLAY_ORDER) → (l.map sortKey).Nodup := by
    intro l hnd hm
    have hml : l.map sortKey =
        (l.map ReportRow.name).map (fun n => DISPLAY_ORDER.indexOf n) := by
      rw [List.map_map]; rfl
    rw [hml]
    refine List.Nodup.map_on ?_ hnd
    intro x hx y hy hxy
    obtain ⟨r, hr, rfl⟩ := List.mem_map.1 hx
    obtain ⟨r2, hr2, rfl⟩ := List.mem_map.1 hy
    exact hinj _ (hm r hr) _ (hm r2 hr2) hxy
  have hstrict : ∀ l : List ReportRow, l.Sorted rowLE → (l.map sortKey).Nodup →
      l.Sorted rowLT := by
    intro l hle hnd
    have hne : l.Pairwise (fun a b => sortKey a ≠ sortKey b) := (List.pairwise_map).1 hnd
    exact (List.Pairwise.and hle hne).imp (fun hab => Nat.lt_of_le_of_ne hab.1 hab.2)
  have hnames2 : (rows2.map ReportRow.name).Nodup :=
    ((hperm.map ReportRow.name).nodup_iff).1 hnames
  have hmem2 : ∀ r ∈ rows2, r.name ∈ DISPLAY_ORDER :=
    fun r hr => hmem r (hperm.mem_iff.2 hr)
  have hs1 : (sort_rows rows1).Perm rows1 := List.perm_insertionSort rowLE rows1
  have hs2 : (sort_rows rows2).Perm rows2 := List.perm_insertionSort rowLE rows2
  have hsorted1 : (sort_rows rows1).Sorted rowLE := List.sorted_insertionSort rowLE rows1
  have hsorted2 : (sort_rows rows2).Sorted rowLE := List.sorted_insertionSort rowLE rows2
  have hk1 : ((sort_rows rows1).map sortKey).Nodup :=
    ((hs1.map sortKey).nodup_iff).2 (keyNodup rows1 hnames hmem)
  have hk2 : ((sort_rows rows2).map sortKey).Nodup :=
    ((hs2.map sortKey).nodup_iff).2 (keyNodup rows2 hnames2 hmem2)
  have hperm12 : (sort_rows rows1).Perm (sort_rows rows2) :=
    hs1.trans (hperm.trans hs2.symm)
  exact ⟨List.eq_of_perm_of_sorted hperm12 (hstrict _ hsorted1 hk1) (hstrict _ hsorted2 hk2),
    hs1, hsorted1⟩

/-- Witness for claim C5: the two arrival orders of the Router and Modem
rows sort identically. -/
theorem claim5_sort_deterministic_witness :
    sort_rows [rowRouter, rowModem] = sort_rows [rowModem, rowRouter] :=
  (claim5_sort_deterministic [rowRouter, rowModem] [rowModem, rowRouter]
    (List.Perm.swap rowModem rowRouter []) (by decide) (by decide)).1

/-- Counterexample to claim C6: with a registry containing a host whose
name is missing from DISPLAY_ORDER, the run is not stopped at startup:
every ping task still completes (one progress line per host, four in
all) and the configuration error only surfaces afterwards, as the
ValueError of the render-time sort. -/
theorem claim6_counterexample :
    (run_main badHOSTS 10 (fun _ => PingOutcome.timedOut)).1.length = badHOSTS.length ∧
    badHOSTS.length = 4 ∧
    (run_main badHOSTS 10 (fun _ => PingOutcome.timedOut)).2 =
      Except.error ("ValueError") :=
  ⟨rfl, rfl, rfl⟩

/-- Claim C6 as amended: the program performs no eager startup
validation of the registry against the display order; a host name absent
from DISPLAY_ORDER leaves all ping work running to completion and only
fails at the render-time sort with ValueError, while duplicate host
names cannot arise from the dict-based registry. -/
theorem claim6_render_time_failure (hosts : List (String × String)) (count : ℤ)
    (oc : String → PingOutcome)
    (hbad : ∃ h ∈ hosts, h.1 ∉ DISPLAY_ORDER) :
    (run_main hosts count oc).1.length = hosts.length ∧
    (run_main hosts count oc).2 = Except.error ("ValueError") := by
  obtain ⟨h, hh, hnot⟩ := hbad
  have hrow : rowOf (ping_host h.1 h.2 count (oc h.1)) ∈
      collect_rows (run_results hosts count oc) :=
    List.mem_map_of_mem rowOf (List.mem_map_of_mem _ hh)
  have hname : (rowOf (ping_host h.1 h.2 count (oc h.1))).name = h.1 := by
    cases oc h.1 <;> rfl
  have hcond : ¬ ∀ r ∈ collect_rows (run_results hosts count oc),
      r.name ∈ DISPLAY_ORDER := by
    intro hall
    exact hnot (hname ▸ hall _ hrow)
  constructor
  · simp [run_main, run_results]
  · simp only [run_main, sort_rows_checked, if_neg hcond]

/-- Witness for the amended claim C6 at the extended registry. -/
theorem claim6_render_time_failure_witness :
    (run_main badHOSTS 10 (fun _ => PingOutcome.timedOut)).1.length =
      badHOSTS.length :=
  (claim6_render_time_failure badHOSTS 10 (fun _ => PingOutcome.timedOut) (by decide)).1

/-- Claim C7: the complete successful transcript parses to the genuine
values, with the four round-trip tokens kept verbatim as strings. -/
theorem claim7_scenarioA :
    parse_ping_output scenarioA =
      { packets_transmitted := PyCount.int 10
        packets_received := PyCount.int 10
        packet_loss := PyLoss.num 0
        rtt_min := "1.0"
        rtt_avg := "2.0"
        rtt_max := "3.0"
        rtt_stddev := "0.5"
        timeout_count := 0 } := by
  have hl : searchLoss scenarioA.toList = some ("0.0".toList) := by decide
  have hs : searchStats scenarioA.toList = some ("10".toList, "10".toList) := by decide
  have hr : searchRtt scenarioA.toList =
      some ("1.0".toList, "2.0".toList, "3.0".toList, "0.5".toList) := by decide
  have ht : countTimeouts scenarioA.toList = 0 := by decide
  have h10 : pyIntNat ("10".toList) = 10 := rfl
  simp only [parse_ping_output, hl, hs, hr, ht, h10, pyFloat_zeroToken]
  rfl

/-- Claim C8: two timeout marker lines and no summary lines give the
Error sentinel for loss, the joint not-available sentinels for both
packet counts, and a timeout count of two. -/
theorem claim8_scenarioB :
    parse_ping_output scenarioB = { sentinelStats with timeout_count := 2 } := by
  decide

/-- Claim C9: numeric parse results are never negative, because every
extraction pattern captures only unsigned digit tokens. -/
theorem claim9_numeric_nonneg (s : String) :
    (∀ q, (parse_ping_output s).packet_loss = PyLoss.num q → 0 ≤ q) ∧
    (∀ n, (parse_ping_output s).packets_transmitted = PyCount.int n → 0 ≤ n) ∧
    (∀ n, (parse_ping_output s).packets_received = PyCount.int n → 0 ≤ n) ∧
    0 ≤ (parse_ping_output s).timeout_count := by
  refine ⟨?_, ?_, ?_, Nat.zero_le _⟩
  · intro q hq
    rw [parse_loss_def] at hq
    cases h : searchLoss s.toList with
    | some g =>
        rw [h] at hq
        cases hq
        exact pyFloat_nonneg g
    | none => rw [h] at hq; cases hq
  · intro n hn
    rw [parse_tx_def] at hn
    cases h : searchStats s.toList with
    | some g => rw [h] at hn; cases hn; exact Int.ofNat_nonneg _
    | none => rw [h] at hn; cases hn
  · intro n hn
    rw [parse_rx_def] at hn
    cases h : searchStats s.toList with
    | some g => rw [h] at hn; cases hn; exact Int.ofNat_nonneg _
    | none => rw [h] at hn; cases hn

/-- Witness for claim C9 on the Scenario A transcript, whose loss parses
to zero and whose transmitted count parses to ten. -/
theorem claim9_numeric_nonneg_witness : (0:ℚ) ≤ 0 ∧ (0:ℤ) ≤ 10 :=
  ⟨(claim9_numeric_nonneg scenarioA).1 0 parseA_loss,
   (claim9_numeric_nonneg scenarioA).2.1 10 parseA_tx⟩

/-- Claim C10: the count option accepts any integer with no positivity
validation anywhere: argument parsing succeeds for every integer,
ping_host builds the ping command with the decimal count and the overall
subprocess timeout count plus ten, and still returns a name, ip, output
triple on every outcome. -/
theorem claim10_count_unvalidated (c : ℤ) (name ip : String) (oc : PingOutcome) :
    parse_args (some c) = c ∧ parse_args none = 10 ∧
    ping_command c ip = ["ping", "-c", pyStr c, ip] ∧
    subprocess_timeout c = c + 10 ∧
    ∃ out, ping_host name ip c oc = (name, ip, out) := by
  refine ⟨rfl, rfl, rfl, rfl, ?_⟩
  cases oc with
  | completed out => exact ⟨out, rfl⟩
  | timedOut => exact ⟨timeout_message c, rfl⟩
  | failed e => exact ⟨error_message e, rfl⟩

end PingTool
